import Mathlib

/-!
Verification of the formbot repository (test.py, bot.py, test2.py): a shallow
embedding of the form-introspection, column-matching and row-submission logic,
with theorems checking the specification's claims against it.

External collaborators (the HTTP client, the HTML parser via BeautifulSoup,
the Gemini API, the CSV reader and the JSON decoder) are modelled at their
effect boundary: fetched pages arrive as pre-parsed element data, network
submissions are an outcome oracle, and the model response arrives as the
result of the fenced-JSON extraction and parse. Python dicts are modelled as
insertion-ordered association lists with update-in-place semantics; Python
string lowering and whitespace stripping are modelled on ASCII characters.
-/

set_option autoImplicit false

namespace FormBot

/-- Python dict assignment `d[k] = v`: replaces the value at an existing key
in place, otherwise appends the new pair (insertion order preserved). -/
def dinsert {α β : Type} [BEq α] (k : α) (v : β) : List (α × β) → List (α × β)
  | [] => [(k, v)]
  | (k', v') :: rest => if k' == k then (k', v) :: rest else (k', v') :: dinsert k v rest

/-- Python dict lookup `d[k]` / `k in d`. -/
def dlookup {α β : Type} [BEq α] (k : α) : List (α × β) → Option β
  | [] => none
  | (k', v') :: rest => if k' == k then some v' else dlookup k rest

/-- Python `d.get(k, default)`. -/
def dget {α β : Type} [BEq α] (k : α) (d : List (α × β)) (dflt : β) : β :=
  (dlookup k d).getD dflt

/-- Python `str.lower()` (ASCII model). -/
def to_lower (s : String) : String := String.mk (s.data.map Char.toLower)

/-- Case-insensitive string equality, as `a.lower() == b.lower()`. -/
def ci_eq (a b : String) : Bool := to_lower a == to_lower b

/-- List-level substring occurrence. -/
def list_contains_sub (n l : List Char) : Bool := l.tails.any (fun t => n.isPrefixOf t)

/-- Python `needle.lower() in hay.lower()` (substring containment). -/
def contains_ci (needle hay : String) : Bool :=
  list_contains_sub (to_lower needle).data (to_lower hay).data

/-- Python `s.startswith(pre)` on character lists (structurally recursive so
that concrete instances evaluate inside the kernel). -/
def py_startswith (s pre : String) : Bool := pre.data.isPrefixOf s.data

/-- Python `str.strip()`: drop leading and trailing whitespace. -/
def strip (s : String) : String :=
  String.mk (((s.data.dropWhile Char.isWhitespace).reverse.dropWhile Char.isWhitespace).reverse)

namespace Test1

/-- Partial score of a column against a form label (test.py lines 129-134):
50 when the column text occurs in the label, 40 when the label occurs in the
column text, plus the length-similarity bonus max(0, 10 - abs-length-diff)
which natural subtraction gives directly. -/
def substr_score (csv_col form_label : String) : Nat :=
  (if contains_ci csv_col form_label then 50 else 0) +
    (if contains_ci form_label csv_col then 40 else 0) +
    (10 - Nat.dist csv_col.length form_label.length)

/-- Total score a label earns for a column: 100 on exact case-insensitive
equality (which also short-circuits the loop), otherwise the partial score. -/
def label_score (csv_col form_label : String) : Nat :=
  if ci_eq csv_col form_label then 100 else substr_score csv_col form_label

/-- Inner loop of find_matching_keys (test.py lines 120-138): walk the field
entries in order, skip used identifiers, break with the first label equal to
the column case-insensitively, otherwise keep the best strictly improving
partial score. -/
def best_go (csv_col : String) (used : List String) :
    List (String × String) → Option String → Nat → Option String
  | [], best, _ => best
  | (form_label, entry_id) :: rest, best, best_score =>
    if used.contains entry_id then best_go csv_col used rest best best_score
    else if ci_eq csv_col form_label then some entry_id
    else
      let s := substr_score csv_col form_label
      if s > best_score then best_go csv_col used rest (some entry_id) s
      else best_go csv_col used rest best best_score

/-- Best candidate for one column, starting from no match and score 0. -/
def find_best (entry_id_dict : List (String × String)) (used : List String)
    (csv_col : String) : Option String :=
  best_go csv_col used entry_id_dict none 0

/-- Outer loop of find_matching_keys (test.py lines 116-147): process columns
in file order, record a found best match and mark it used; Python's
`if best_match:` drops both None and the empty string. -/
def fmk_go (entry_id_dict : List (String × String)) :
    List String → List (String × String) → List String → List (String × String)
  | [], maps, _ => maps
  | c :: cs, maps, used =>
    match find_best entry_id_dict used c with
    | some entry_id =>
      if entry_id = "" then fmk_go entry_id_dict cs maps used
      else fmk_go entry_id_dict cs (dinsert c entry_id maps) (entry_id :: used)
    | none => fmk_go entry_id_dict cs maps used

/-- Strategy A matcher find_matching_keys (test.py lines 109-147). -/
def find_matching_keys (entry_id_dict : List (String × String))
    (csv_header : List String) : List (String × String) :=
  fmk_go entry_id_dict csv_header [] []

/-- Payload built for one row (test.py lines 28-30):
`form_data[form_entry_id] = row.get(csv_column, "")` over the mapping. -/
def form_data (field_mappings : List (String × String))
    (row : List (String × String)) : List (String × String) :=
  field_mappings.foldl (fun fd p => dinsert p.2 (dget p.1 row "") fd) []

/-- Outcome of one `requests.post` + `raise_for_status` call, the effect
boundary of the HTTP client: a clean response, an HTTP error status that
makes raise_for_status raise, or a transport error raised by post itself.
Both error cases surface as requests.exceptions.RequestException. -/
inductive PostOutcome
  | ok
  | httpErr
  | transportErr
deriving DecidableEq

/-- True when the submission call raised no exception. -/
def outcome_ok : PostOutcome → Bool
  | .ok => true
  | _ => false

/-- Row loop of csv_to_google_form (test.py lines 27-45): one post per row in
order; an exception prints an error and clears the all-successful flag but the
loop continues. The second component is the per-row success log (the
"Successfully submitted" prints). -/
def csv_to_google_form_go (field_mappings : List (String × String))
    (post : Nat → List (String × String) → PostOutcome) :
    List (List (String × String)) → Nat → Bool → Bool × List Bool
  | [], _, all_ok => (all_ok, [])
  | row :: rest, i, all_ok =>
    let fd := form_data field_mappings row
    let ok := outcome_ok (post i fd)
    let res := csv_to_google_form_go field_mappings post rest (i + 1) (all_ok && ok)
    (res.1, ok :: res.2)

/-- csv_to_google_form (test.py lines 6-52) restricted to its row loop: the
CSV reader supplies `rows`, the HTTP client is the `post` oracle indexed by
call number and payload. Returns the final all-successful flag and the
per-row success log. -/
def csv_to_google_form (field_mappings : List (String × String))
    (rows : List (List (String × String)))
    (post : Nat → List (String × String) → PostOutcome) : Bool × List Bool :=
  csv_to_google_form_go field_mappings post rows 0 true

/-- One `div role=listitem` as the HTML parser delivers it: the stripped text
of its first span (none when no span is found) and the data-params attribute
of its first div carrying one (none when no such div). -/
structure ListItem where
  question_span : Option String
  data_params : Option String
deriving DecidableEq

/-- The regex search `\[\[(\d+)` on the data-params text (test.py line 87):
first occurrence of two open brackets followed by at least one digit; the
captured group is the maximal digit run. -/
def find_entry_num : List Char → Option (List Char)
  | '[' :: '[' :: c :: rest =>
    if c.isDigit then some (c :: rest.takeWhile Char.isDigit)
    else find_entry_num ('[' :: c :: rest)
  | _ :: rest => find_entry_num rest
  | [] => none
termination_by l => l.length
decreasing_by
  all_goals simp_arith [List.length]

/-- What one list item contributes (test.py lines 68-96): none when the item
lacks a span, lacks a data-params div, has an empty attribute or yields no
entry number; otherwise the stripped label paired with "entry." ++ digits. -/
def item_entry (it : ListItem) : Option (String × String) :=
  match it.question_span with
  | none => none
  | some qs =>
    match it.data_params with
    | none => none
    | some dp =>
      if dp = "" then none
      else
        match find_entry_num dp.data with
        | some ds => some (strip qs, "entry." ++ String.mk ds)
        | none => none

/-- Field extraction over the parsed list items (test.py lines 66-96): fold
the contributions into the dict in document order, so on a label collision
the last-seen entry wins (dict assignment replaces the value in place). -/
def extract_items (items : List ListItem) : List (String × String) :=
  items.foldl (fun acc it =>
    match item_entry it with
    | some kv => dinsert kv.1 kv.2 acc
    | none => acc) []

/-- get_form_entry_ids (test.py lines 55-105): a fetch failure returns None;
a successful fetch extracts the fields and then `return entry_ids if
entry_ids else None` collapses the empty dict to None as well. -/
def get_form_entry_ids (fetch : Except Unit (List ListItem)) :
    Option (List (String × String)) :=
  match fetch with
  | .error _ => none
  | .ok items =>
    let entry_ids := extract_items items
    if entry_ids.isEmpty then none else some entry_ids

end Test1

namespace Bot

/-- The characters Python's re.escape (3.7+) prefixes with a backslash:
everything in the set "()[]{}?*+-|^$\\.&~# \t\n\r\v\f". -/
def re_escape_special : List Char :=
  ['(', ')', '[', ']', '\x7b', '\x7d', '?', '*', '+', '-', '|', '^', '$',
   '\\', '.', '&', '~', '#', ' ', '\t', '\n', '\r', '\x0b', '\x0c']

/-- Python re.escape on a character list. -/
def re_escape_list : List Char → List Char
  | [] => []
  | c :: rest =>
    if c ∈ re_escape_special then '\\' :: c :: re_escape_list rest
    else c :: re_escape_list rest

/-- Python re.escape. -/
def re_escape (s : String) : String := String.mk (re_escape_list s.data)

/-- sanitize_for_regex (bot.py lines 7-9): exactly re.escape. -/
def sanitize_for_regex (text : String) : String := re_escape text

/-- Bare regex metacharacters: a pattern containing one of these outside a
backslash escape is not a plain literal. Every such character is also in
re_escape_special, so escaping always removes them. -/
def regex_meta : List Char :=
  ['(', ')', '[', ']', '\x7b', '\x7d', '?', '*', '+', '|', '^', '$', '\\', '.']

/-- Parse a regex that denotes a plain literal: bare non-metacharacters stand
for themselves and a backslash before a non-alphanumeric character stands for
that character (a backslash before an alphanumeric is a character class or
group reference, outside this fragment). Returns none for anything else;
every regex the bot compiles is produced by re.escape and lands in this
fragment. -/
def lit_of_list : List Char → Option (List Char)
  | [] => some []
  | '\\' :: c :: rest =>
    if c.isAlphanum then none
    else (lit_of_list rest).map (fun l => c :: l)
  | c :: rest =>
    if c = '\\' then none
    else if c ∈ regex_meta then none
    else (lit_of_list rest).map (fun l => c :: l)

/-- The literal a pattern string denotes, when it is in the literal fragment. -/
def lit_of (pat : String) : Option String :=
  (lit_of_list pat.data).map String.mk

/-- Model of `re.search(pat, hay, re.IGNORECASE)` for literal-fragment
patterns: some (case-insensitive substring test) when the pattern denotes a
literal, none when compilation would leave the fragment. -/
def re_search_lit (pat hay : String) : Option Bool :=
  (lit_of pat).map (fun l => contains_ci l hay)

/-- Model of `re.search("^" ++ pat ++ "$", hay, re.IGNORECASE)` for
literal-fragment pat: the anchors make it a full case-insensitive match, with
Python's dollar also accepting a single trailing newline in the haystack. -/
def re_search_anchored (pat hay : String) : Option Bool :=
  (lit_of pat).map (fun l => ci_eq l hay || ci_eq (l ++ "\n") hay)

/-- One rule of the Strategy B rule file: pattern, score, optional
match_type (absent means "contains", any unknown value matches nothing). -/
structure Rule where
  pattern : String
  score : Int
  match_type : Option String
deriving DecidableEq

/-- Evaluate one rule against one label (bot.py lines 141-161): dispatch on
match_type, always passing the configured pattern (and, for reverse_contains,
the label) through sanitize_for_regex before searching; none models an
re.error raised while compiling the search. -/
def eval_rule (form_label : String) (r : Rule) : Option Bool :=
  let mt := r.match_type.getD "contains"
  if mt = "exact" then re_search_anchored (sanitize_for_regex r.pattern) form_label
  else if mt = "contains" then re_search_lit (sanitize_for_regex r.pattern) form_label
  else if mt = "reverse_contains" then re_search_lit (sanitize_for_regex form_label) r.pattern
  else some false

/-- Rule loop for a fixed column candidate (bot.py lines 141-165): a match
with a strictly higher score takes over the best candidate; an re.error is
the warn-and-continue branch, recorded in the error flag. -/
def rules_go (form_label entry_id : String) :
    List Rule → (Option String × Int) × Bool → (Option String × Int) × Bool
  | [], st => st
  | r :: rs, ((best, best_score), err) =>
    match eval_rule form_label r with
    | none => rules_go form_label entry_id rs ((best, best_score), true)
    | some true =>
      if r.score > best_score then rules_go form_label entry_id rs ((some entry_id, r.score), err)
      else rules_go form_label entry_id rs ((best, best_score), err)
    | some false => rules_go form_label entry_id rs ((best, best_score), err)

/-- Label loop for one column (bot.py lines 137-165): skip used identifiers,
otherwise run every rule of the column against the label. -/
def entries_go (rules : List Rule) (used : List String) :
    List (String × String) → (Option String × Int) × Bool → (Option String × Int) × Bool
  | [], st => st
  | (form_label, entry_id) :: rest, st =>
    if used.contains entry_id then entries_go rules used rest st
    else entries_go rules used rest (rules_go form_label entry_id rules st)

/-- Column loop of find_matching_keys_with_regex (bot.py lines 133-171):
`regex_patterns.get(csv_col, [])` supplies the rules; a found (truthy) best
match is recorded and marked used. The boolean threads whether any re.error
warning fired. -/
def regex_go (entry_id_dict : List (String × String))
    (regex_patterns : List (String × List Rule)) :
    List String → List (String × String) → List String → Bool →
      List (String × String) × Bool
  | [], maps, _, err => (maps, err)
  | c :: cs, maps, used, err =>
    match entries_go ((dlookup c regex_patterns).getD []) used entry_id_dict ((none, 0), err) with
    | ((some entry_id, _), err') =>
      if entry_id = "" then regex_go entry_id_dict regex_patterns cs maps used err'
      else regex_go entry_id_dict regex_patterns cs (dinsert c entry_id maps) (entry_id :: used) err'
    | ((none, _), err') => regex_go entry_id_dict regex_patterns cs maps used err'

/-- Strategy B matcher find_matching_keys_with_regex (bot.py lines 118-171),
after the rule file has been read and decoded; the second component records
whether the invalid-regex warning branch ever ran. -/
def find_matching_keys_with_regex (entry_id_dict : List (String × String))
    (csv_header : List String) (regex_patterns : List (String × List Rule)) :
    List (String × String) × Bool :=
  regex_go entry_id_dict regex_patterns csv_header [] [] false

/-- Plain fill (bot.py lines 25-26 and 48-49):
`form_data[form_entry_id] = row.get(csv_column, "")` over the mapping. -/
def fill_all (field_mappings : List (String × String))
    (row : List (String × String)) : List (String × String) :=
  field_mappings.foldl (fun fd p => dinsert p.2 (dget p.1 row "") fd) []

/-- Single-name-field search (bot.py lines 29-33): walk the module-level
entry_ids dict and return the first entry id equal to the module-level
mappings value for firstname, when mappings has a firstname key. This is
the value the single_name_field variable holds after the loop; the loop
itself assigns it even when that id is the empty string — the truthiness
test happens later, at line 35. -/
def single_name_field (entry_ids gmappings : List (String × String)) :
    Option String :=
  match dlookup "firstname" gmappings with
  | some fid => if entry_ids.any (fun p => p.2 == fid) then some fid else none
  | none => none

/-- Payload for one row in bot.py's csv_to_google_form (lines 20-50),
including the name-combining logic. field_mappings is the argument;
entry_ids and gmappings are the module-level globals the function reads
(main assigns both from the same run). Python's `if single_name_field:`
(line 35) is a truthiness test, so both None and the empty string fall
through to the plain fill. -/
def form_data (field_mappings entry_ids gmappings : List (String × String))
    (row : List (String × String)) : List (String × String) :=
  if ((dlookup "firstname" field_mappings).isSome &&
      (dlookup "lastname" field_mappings).isSome) then
    fill_all field_mappings row
  else
    match single_name_field entry_ids gmappings with
    | some snf =>
      if snf = "" then fill_all field_mappings row
      else
        let combined := strip (dget "firstname" row "" ++ " " ++ dget "lastname" row "")
        (field_mappings.filter (fun p => p.1 != "firstname" && p.1 != "lastname")).foldl
          (fun fd p => dinsert p.2 (dget p.1 row "") fd) (dinsert snf combined [])
    | none => fill_all field_mappings row

end Bot

namespace Test2

/-- A Python value as test2.py stores it in its dicts: a plain string
(visible identifier), a (name, default value) pair (hidden field), or any
other JSON value a model response may have supplied. -/
inductive PyVal
  | pstr (s : String)
  | ptup (name value : String)
  | pother
deriving DecidableEq

/-- Test of `isinstance(v, tuple)`. -/
def is_tup : PyVal → Bool
  | .ptup _ _ => true
  | _ => false

/-- The visible-field filter applied before prompting Gemini (test2.py lines
215-219): `isinstance(entry_id, str) and entry_id.startswith("entry.")`. -/
def is_visible_entry : PyVal → Bool
  | .pstr s => py_startswith s "entry."
  | _ => false

/-- Whitelist of sanitize_for_prompt (test2.py line 57): word characters,
whitespace and the punctuation class survive, everything else is removed. -/
def prompt_char_ok (c : Char) : Bool :=
  c.isAlphanum || c = '_' || c.isWhitespace ||
    c ∈ ['.', ',', ';', ':', '-', '!', '?', '"']

/-- sanitize_for_prompt (test2.py lines 54-58): newlines and tabs become
spaces, then disallowed characters are dropped. -/
def sanitize_for_prompt (text : String) : String :=
  String.mk (((text.data.map fun c => if c = '\n' || c = '\t' then ' ' else c).filter
    prompt_char_ok))

/-- One `div` with a data-params attribute as the HTML parser delivers it:
the name attribute of its first input and first textarea (none when the
element or attribute is absent) and the result of the _extract_label fallback
chain over its soup (an aria-labelledby target, a span, or a heading div;
none when all three fail). -/
structure Container where
  input_name : Option String
  textarea_name : Option String
  label : Option String
deriving DecidableEq

/-- One hidden input element: its name attribute (none when absent) and its
value attribute with `.get('value', '')` default. -/
structure HiddenInput where
  name : Option String
  value : String
deriving DecidableEq

/-- A fetched form page after parsing: the data-params containers and the
hidden inputs. -/
structure FormDoc where
  containers : List Container
  hidden_inputs : List HiddenInput
deriving DecidableEq

/-- Python's `_extract_label(container) or field_name`: an absent or empty
label text falls back to the raw field name. -/
def label_or (lbl : Option String) (field_name : String) : String :=
  match lbl with
  | some l => if l = "" then field_name else l
  | none => field_name

/-- Record one control name of a container (test2.py lines 135-146): keep it
only when the name attribute is present, truthy and starts with "entry.". -/
def record_field (ct : Container) (field_name : Option String)
    (acc : List (String × PyVal)) : List (String × PyVal) :=
  match field_name with
  | some n =>
    if n ≠ "" && py_startswith n "entry." then
      dinsert (label_or ct.label n) (PyVal.pstr n) acc
    else acc
  | none => acc

/-- Visible-field scan of get_form_entry_ids (test2.py lines 130-147): each
container contributes its input control and then its textarea control. -/
def extract_visible (containers : List Container) : List (String × PyVal) :=
  containers.foldl (fun acc ct => record_field ct ct.textarea_name
    (record_field ct ct.input_name acc)) []

/-- Hidden-field scan (test2.py lines 150-156): each hidden input with a
truthy name is recorded as name mapped to the (name, value) pair. -/
def add_hidden (hidden : List HiddenInput) (acc : List (String × PyVal)) :
    List (String × PyVal) :=
  hidden.foldl (fun acc hi =>
    match hi.name with
    | some n => if n ≠ "" then dinsert n (PyVal.ptup n hi.value) acc else acc
    | none => acc) acc

/-- Full extraction of a fetched page. -/
def extract_doc (doc : FormDoc) : List (String × PyVal) :=
  add_hidden doc.hidden_inputs (extract_visible doc.containers)

/-- get_form_entry_ids (test2.py lines 121-166): a fetch failure returns
None; a successful fetch returns the extracted dict unconditionally, so the
empty dict is a distinct "no fields found" outcome. -/
def get_form_entry_ids (fetch : Except Unit FormDoc) :
    Option (List (String × PyVal)) :=
  match fetch with
  | .error _ => none
  | .ok doc => some (extract_doc doc)

/-- Validation loop of find_matching_keys_with_gemini (test2.py lines
250-257): walk the parsed mappings accumulating used entry ids and report the
columns whose value is not an "entry."-prefixed string or whose id was
already seen. The loop only prints these warnings; it does not change the
mappings dict. -/
def validate_warnings : List (String × PyVal) → List String → List String
  | [], _ => []
  | (csv_col, v) :: rest, used =>
    match v with
    | .pstr s =>
      if ¬ py_startswith s "entry." then csv_col :: validate_warnings rest used
      else if used.contains s then csv_col :: validate_warnings rest used
      else validate_warnings rest (s :: used)
    | _ => csv_col :: validate_warnings rest used

/-- Hidden re-add loop (test2.py lines 264-267): every tuple-valued entry of
the field map is written back into the mappings under its own tuple name. -/
def readd_hidden (entry_id_dict : List (String × PyVal))
    (maps : List (String × PyVal)) : List (String × PyVal) :=
  entry_id_dict.foldl (fun acc p =>
    match p.2 with
    | .ptup a b => dinsert a (PyVal.ptup a b) acc
    | _ => acc) maps

/-- Observable result of find_matching_keys_with_gemini: the sanitized
label/identifier pairs offered to the model, the warnings the validation
loop printed, and the returned mappings dict. -/
structure GeminiResult where
  prompt_columns : List String
  prompt_fields : List (String × PyVal)
  warnings : List String
  mappings : List (String × PyVal)
deriving DecidableEq

/-- find_matching_keys_with_gemini (test2.py lines 192-269). Hidden (tuple)
fields are filtered out before the prompt is built; the model call, the
fenced-JSON extraction and json.loads are summarized by `parsed` (none when
no JSON block is found, the parse fails or the API call raises, each of which
returns the empty dict before the hidden re-add; some m when a block parses
to the dict m). The validation loop warns without filtering, then hidden
fields are written back under their own names. -/
def find_matching_keys_with_gemini (entry_id_dict : List (String × PyVal))
    (csv_header : List String) (parsed : Option (List (String × PyVal))) :
    GeminiResult :=
  let filtered := entry_id_dict.filter (fun p => is_visible_entry p.2)
  let prompt_columns := csv_header.map sanitize_for_prompt
  let prompt_fields := filtered.foldl
    (fun acc p => dinsert (sanitize_for_prompt p.1) p.2 acc) []
  match parsed with
  | none => ⟨prompt_columns, prompt_fields, [], []⟩
  | some m =>
    ⟨prompt_columns, prompt_fields, validate_warnings m [], readd_hidden entry_id_dict m⟩

/-- Payload keys are Python values: the tuple branch keys by the tuple's
name string, the other branch keys by the raw mapping value itself. -/
def payload_key (v : PyVal) : PyVal :=
  match v with
  | .ptup a _ => .pstr a
  | v => v

/-- Payload values: a tuple contributes its fixed default, anything else the
row's value for the column with "" default. -/
def payload_val (row : List (String × String)) (csv_col : String) (v : PyVal) : String :=
  match v with
  | .ptup _ b => b
  | _ => dget csv_col row ""

/-- Payload for one row in test2.py's csv_to_google_form (lines 90-96): every
mapping pair except the User column contributes one assignment; tuples send
their fixed default under their name, strings send the row value under the
identifier. -/
def form_data (field_mappings : List (String × PyVal))
    (row : List (String × String)) : List (PyVal × String) :=
  field_mappings.foldl (fun fd p =>
    if p.1 = "User" then fd
    else dinsert (payload_key p.2) (payload_val row p.1 p.2) fd) []

end Test2

/-! Dictionary lemmas. -/

theorem dlookup_dinsert_self {α β : Type} [BEq α] [LawfulBEq α]
    (k : α) (v : β) (d : List (α × β)) :
    dlookup k (dinsert k v d) = some v := by
  induction d with
  | nil => simp [dinsert, dlookup]
  | cons p rest ih =>
    obtain ⟨k', v'⟩ := p
    by_cases h : k' = k
    · simp [dinsert, dlookup, h]
    · simp [dinsert, dlookup, h, ih]

theorem dlookup_dinsert_ne {α β : Type} [BEq α] [LawfulBEq α]
    (k k' : α) (v : β) (d : List (α × β))
    (h : k' ≠ k) : dlookup k' (dinsert k v d) = dlookup k' d := by
  induction d with
  | nil =>
    have hk : k ≠ k' := fun hh => h hh.symm
    simp [dinsert, dlookup, hk]
  | cons p rest ih =>
    obtain ⟨k0, v0⟩ := p
    by_cases h0 : k0 = k
    · subst h0
      have hk : k0 ≠ k' := fun hh => h hh.symm
      simp [dinsert, dlookup, hk]
    · simp [dinsert, dlookup, h0, ih]

theorem dinsert_eq_append {α β : Type} [BEq α] [LawfulBEq α]
    (k : α) (v : β) (d : List (α × β))
    (h : dlookup k d = none) : dinsert k v d = d ++ [(k, v)] := by
  induction d with
  | nil => simp [dinsert]
  | cons p rest ih =>
    obtain ⟨k0, v0⟩ := p
    by_cases h0 : k0 = k
    · simp [dlookup, h0] at h
    · simp [dlookup, h0] at h
      simp [dinsert, h0, ih h]

theorem dlookup_append_right {α β : Type} [BEq α] [LawfulBEq α]
    (k : α) (d1 d2 : List (α × β))
    (h : dlookup k d1 = none) : dlookup k (d1 ++ d2) = dlookup k d2 := by
  induction d1 with
  | nil => simp
  | cons p rest ih =>
    obtain ⟨k0, v0⟩ := p
    by_cases h0 : k0 = k
    · simp [dlookup, h0] at h
    · simp [dlookup, h0] at h
      simp [dlookup, h0, ih h]

theorem mem_dinsert {α β : Type} [BEq α] [LawfulBEq α] (k : α) (v : β) (d : List (α × β))
    (q : α × β) (h : q ∈ dinsert k v d) : q.2 = v ∨ q ∈ d := by
  induction d with
  | nil =>
    simp [dinsert] at h
    subst h
    exact Or.inl rfl
  | cons p rest ih =>
    obtain ⟨k0, v0⟩ := p
    by_cases h0 : k0 = k
    · simp [dinsert, h0] at h
      rcases h with h | h
      · subst h
        exact Or.inl rfl
      · exact Or.inr (List.mem_cons_of_mem _ h)
    · simp only [dinsert, h0] at h
      simp only [beq_iff_eq, h0, if_false] at h
      rcases List.mem_cons.mp h with h | h
      · exact Or.inr (h ▸ List.mem_cons_self _ _)
      · rcases ih h with h' | h'
        · exact Or.inl h'
        · exact Or.inr (List.mem_cons_of_mem _ h')

/-! Strategy A lemmas. -/

theorem best_go_of_find (csv_col : String) (used : List String)
    (l : List (String × String)) :
    ∀ (best : Option String) (bs : Nat) (e : String × String),
      l.find? (fun p => !(used.contains p.2) && ci_eq csv_col p.1) = some e →
      Test1.best_go csv_col used l best bs = some e.2 := by
  induction l with
  | nil => intro best bs e h; simp [List.find?] at h
  | cons p rest ih =>
    intro best bs e h
    obtain ⟨label, eid⟩ := p
    by_cases hu : eid ∈ used
    · have huc : used.contains eid = true := by simpa using hu
      rw [List.find?] at h
      simp only [huc, Bool.not_true, Bool.false_and] at h
      simpa [Test1.best_go, hu] using ih best bs e h
    · have huc : used.contains eid = false := by simpa using hu
      by_cases heq : ci_eq csv_col label
      · rw [List.find?] at h
        simp only [huc, Bool.not_false, heq, Bool.and_true, Bool.true_and] at h
        injection h with h
        subst h
        simp [Test1.best_go, hu, heq]
      · rw [List.find?] at h
        simp only [huc, Bool.not_false, heq, Bool.true_and, Bool.and_false] at h
        by_cases hs : Test1.substr_score csv_col label > bs
        · simpa [Test1.best_go, hu, heq, hs] using
            ih (some eid) (Test1.substr_score csv_col label) e h
        · simpa [Test1.best_go, hu, heq, hs] using ih best bs e h

theorem best_go_of_zero (csv_col : String) (used : List String)
    (l : List (String × String)) (hz : ∀ p ∈ l, Test1.label_score csv_col p.1 = 0) :
    ∀ (best : Option String) (bs : Nat), Test1.best_go csv_col used l best bs = best := by
  induction l with
  | nil => intro best bs; simp [Test1.best_go]
  | cons p rest ih =>
    intro best bs
    obtain ⟨label, eid⟩ := p
    have hz0 := hz (label, eid) (List.mem_cons_self _ _)
    have hzr : ∀ p ∈ rest, Test1.label_score csv_col p.1 = 0 :=
      fun p hp => hz p (List.mem_cons_of_mem _ hp)
    have heq : ci_eq csv_col label = false := by
      by_contra hc
      rw [Bool.not_eq_false] at hc
      simp [Test1.label_score, hc] at hz0
    have hss : Test1.substr_score csv_col label = 0 := by
      simpa [Test1.label_score, heq] using hz0
    by_cases hu : eid ∈ used
    · simpa [Test1.best_go, hu] using ih hzr best bs
    · have hlt : ¬ (0 > bs) := Nat.not_lt_zero bs
      simpa [Test1.best_go, hu, heq, hss, hlt] using ih hzr best bs

theorem fmk_go_lookup_none (entry_id_dict : List (String × String)) (csv_col : String)
    (hz : ∀ p ∈ entry_id_dict, Test1.label_score csv_col p.1 = 0) :
    ∀ (cols : List String) (maps : List (String × String)) (used : List String),
      dlookup csv_col maps = none →
      dlookup csv_col (Test1.fmk_go entry_id_dict cols maps used) = none := by
  intro cols
  induction cols with
  | nil => intro maps used h; simpa [Test1.fmk_go] using h
  | cons c cs ih =>
    intro maps used h
    by_cases hc : c = csv_col
    · subst hc
      have : Test1.find_best entry_id_dict used c = none :=
        best_go_of_zero c used entry_id_dict hz none 0
      simpa [Test1.fmk_go, this] using ih maps used h
    · rcases hfb : Test1.find_best entry_id_dict used c with _ | eid
      · simpa [Test1.fmk_go, hfb] using ih maps used h
      · by_cases he : eid = ""
        · simpa [Test1.fmk_go, hfb, he] using ih maps used h
        · have h' : dlookup csv_col (dinsert c eid maps) = none := by
            rw [dlookup_dinsert_ne c csv_col eid maps (fun hh => hc hh.symm)]
            exact h
          simpa [Test1.fmk_go, hfb, he] using ih (dinsert c eid maps) (eid :: used) h'

/-! Submitter lemmas. -/

theorem csv_go_spec (field_mappings : List (String × String))
    (post : Nat → List (String × String) → Test1.PostOutcome)
    (rows : List (List (String × String))) :
    ∀ (i : Nat) (all_ok : Bool),
      Test1.csv_to_google_form_go field_mappings post rows i all_ok =
        (all_ok && ((rows.enumFrom i).map
            (fun p => Test1.outcome_ok (post p.1 (Test1.form_data field_mappings p.2)))).all id,
          (rows.enumFrom i).map
            (fun p => Test1.outcome_ok (post p.1 (Test1.form_data field_mappings p.2)))) := by
  induction rows with
  | nil => intro i all_ok; simp [Test1.csv_to_google_form_go]
  | cons row rest ih =>
    intro i all_ok
    simp only [Test1.csv_to_google_form_go, ih (i + 1), List.enumFrom_cons, List.map_cons,
      List.all_cons, id]
    rw [Bool.and_assoc]

/-! Escaping and Strategy B lemmas. -/

theorem special_not_alnum (c : Char) (h : c ∈ Bot.re_escape_special) :
    c.isAlphanum = false := by
  fin_cases h <;> decide

theorem meta_mem_special (c : Char) (h : c ∈ Bot.regex_meta) :
    c ∈ Bot.re_escape_special := by
  fin_cases h <;> decide

theorem backslash_mem_special : '\\' ∈ Bot.re_escape_special := by decide

theorem lit_of_list_escape (cs : List Char) :
    Bot.lit_of_list (Bot.re_escape_list cs) = some cs := by
  induction cs with
  | nil => simp [Bot.re_escape_list, Bot.lit_of_list]
  | cons c rest ih =>
    by_cases hc : c ∈ Bot.re_escape_special
    · simp [Bot.re_escape_list, hc, Bot.lit_of_list, special_not_alnum c hc, ih]
    · have hb : c ≠ '\\' := fun hh => hc (hh ▸ backslash_mem_special)
      have hm : c ∉ Bot.regex_meta := fun hh => hc (meta_mem_special c hh)
      simp [Bot.re_escape_list, hc, Bot.lit_of_list, hb, hm, ih]

theorem lit_of_sanitize (p : String) :
    Bot.lit_of (Bot.sanitize_for_regex p) = some p := by
  show (Bot.lit_of_list (Bot.re_escape_list p.data)).map String.mk = some p
  rw [lit_of_list_escape]
  rfl

theorem re_search_lit_sanitize (p hay : String) :
    Bot.re_search_lit (Bot.sanitize_for_regex p) hay = some (contains_ci p hay) := by
  show (Bot.lit_of (Bot.sanitize_for_regex p)).map (fun l => contains_ci l hay) = _
  rw [lit_of_sanitize]
  rfl

theorem eval_rule_ne_none (form_label : String) (r : Bot.Rule) :
    Bot.eval_rule form_label r ≠ none := by
  unfold Bot.eval_rule
  by_cases h1 : r.match_type.getD "contains" = "exact"
  · simp only [h1, if_true]
    show (Bot.lit_of (Bot.sanitize_for_regex r.pattern)).map _ ≠ none
    rw [lit_of_sanitize]
    simp
  · by_cases h2 : r.match_type.getD "contains" = "contains"
    · simp only [h1, h2, if_false, if_true]
      rw [re_search_lit_sanitize]
      simp
    · by_cases h3 : r.match_type.getD "contains" = "reverse_contains"
      · simp [h1, h2, h3, re_search_lit_sanitize]
      · simp [h1, h2, h3]

theorem rules_go_err (form_label entry_id : String) (rs : List Bot.Rule) :
    ∀ (best : Option String) (bs : Int) (err : Bool),
      (Bot.rules_go form_label entry_id rs ((best, bs), err)).2 = err := by
  induction rs with
  | nil => intro best bs err; simp [Bot.rules_go]
  | cons r rest ih =>
    intro best bs err
    rcases he : Bot.eval_rule form_label r with _ | b
    · exact absurd he (eval_rule_ne_none form_label r)
    · cases b
      · simpa [Bot.rules_go, he] using ih best bs err
      · by_cases hs : r.score > bs
        · simpa [Bot.rules_go, he, hs] using ih (some entry_id) r.score err
        · simpa [Bot.rules_go, he, hs] using ih best bs err

theorem rules_go_no_match (form_label entry_id : String) (rs : List Bot.Rule)
    (h : ∀ r ∈ rs, Bot.eval_rule form_label r ≠ some true) :
    ∀ (best : Option String) (bs : Int) (err : Bool),
      (Bot.rules_go form_label entry_id rs ((best, bs), err)).1 = (best, bs) := by
  induction rs with
  | nil => intro best bs err; simp [Bot.rules_go]
  | cons r rest ih =>
    intro best bs err
    have hr := h r (List.mem_cons_self _ _)
    have hrest : ∀ r' ∈ rest, Bot.eval_rule form_label r' ≠ some true :=
      fun r' hp => h r' (List.mem_cons_of_mem _ hp)
    rcases he : Bot.eval_rule form_label r with _ | b
    · exact absurd he (eval_rule_ne_none form_label r)
    · cases b
      · simpa [Bot.rules_go, he] using ih hrest best bs err
      · exact absurd he hr

theorem entries_go_err (rules : List Bot.Rule) (used : List String)
    (l : List (String × String)) :
    ∀ (st : (Option String × Int) × Bool),
      (Bot.entries_go rules used l st).2 = st.2 := by
  induction l with
  | nil => intro st; simp [Bot.entries_go]
  | cons p rest ih =>
    intro st
    obtain ⟨label, eid⟩ := p
    obtain ⟨⟨best, bs⟩, err⟩ := st
    by_cases hu : eid ∈ used
    · simpa [Bot.entries_go, hu] using ih ((best, bs), err)
    · have h2 := rules_go_err label eid rules best bs err
      rcases hr : Bot.rules_go label eid rules ((best, bs), err) with ⟨⟨b', s'⟩, e'⟩
      rw [hr] at h2
      simp only at h2
      simpa [Bot.entries_go, hu, hr, h2] using ih ((b', s'), e')

theorem entries_go_no_match (rules : List Bot.Rule) (used : List String)
    (l : List (String × String))
    (h : ∀ p ∈ l, ∀ r ∈ rules, Bot.eval_rule p.1 r ≠ some true) :
    ∀ (st : (Option String × Int) × Bool),
      (Bot.entries_go rules used l st).1 = st.1 := by
  induction l with
  | nil => intro st; simp [Bot.entries_go]
  | cons p rest ih =>
    intro st
    obtain ⟨label, eid⟩ := p
    obtain ⟨⟨best, bs⟩, err⟩ := st
    have hp := h (label, eid) (List.mem_cons_self _ _)
    have hrest : ∀ p' ∈ rest, ∀ r ∈ rules, Bot.eval_rule p'.1 r ≠ some true :=
      fun p' hp' => h p' (List.mem_cons_of_mem _ hp')
    by_cases hu : eid ∈ used
    · simpa [Bot.entries_go, hu] using ih hrest ((best, bs), err)
    · have h1 := rules_go_no_match label eid rules hp best bs err
      rcases hr : Bot.rules_go label eid rules ((best, bs), err) with ⟨⟨b', s'⟩, e'⟩
      rw [hr] at h1
      simp only at h1
      injection h1 with hb hs
      subst hb
      subst hs
      simpa [Bot.entries_go, hu, hr] using ih hrest ((b', s'), e')

theorem regex_go_err (entry_id_dict : List (String × String))
    (regex_patterns : List (String × List Bot.Rule)) (cols : List String) :
    ∀ (maps : List (String × String)) (used : List String) (err : Bool),
      (Bot.regex_go entry_id_dict regex_patterns cols maps used err).2 = err := by
  induction cols with
  | nil => intro maps used err; simp [Bot.regex_go]
  | cons c cs ih =>
    intro maps used err
    have h2 := entries_go_err ((dlookup c regex_patterns).getD []) used entry_id_dict
      ((none, 0), err)
    rcases hr : Bot.entries_go ((dlookup c regex_patterns).getD []) used entry_id_dict
        ((none, 0), err) with ⟨⟨best, sc⟩, e'⟩
    rw [hr] at h2
    simp only at h2
    rcases best with _ | eid
    · simpa [Bot.regex_go, hr, h2] using ih maps used e'
    · by_cases he : eid = ""
      · simpa [Bot.regex_go, hr, he, h2] using ih maps used e'
      · simpa [Bot.regex_go, hr, he, h2] using ih (dinsert c eid maps) (eid :: used) e'

theorem regex_go_lookup_none (entry_id_dict : List (String × String))
    (regex_patterns : List (String × List Bot.Rule)) (csv_col : String)
    (h : ∀ r ∈ (dlookup csv_col regex_patterns).getD [],
      ∀ p ∈ entry_id_dict, Bot.eval_rule p.1 r ≠ some true) :
    ∀ (cols : List String) (maps : List (String × String)) (used : List String) (err : Bool),
      dlookup csv_col maps = none →
      dlookup csv_col (Bot.regex_go entry_id_dict regex_patterns cols maps used err).1 = none := by
  intro cols
  induction cols with
  | nil => intro maps used err hm; simpa [Bot.regex_go] using hm
  | cons c cs ih =>
    intro maps used err hm
    by_cases hc : c = csv_col
    · subst hc
      have hh : ∀ p ∈ entry_id_dict, ∀ r ∈ (dlookup c regex_patterns).getD [],
          Bot.eval_rule p.1 r ≠ some true := fun p hp r hr => h r hr p hp
      have h1 := entries_go_no_match ((dlookup c regex_patterns).getD []) used entry_id_dict
        hh ((none, 0), err)
      rcases hr : Bot.entries_go ((dlookup c regex_patterns).getD []) used entry_id_dict
          ((none, 0), err) with ⟨⟨best, sc⟩, e'⟩
      rw [hr] at h1
      simp only at h1
      injection h1 with hb hs
      subst hb
      simpa [Bot.regex_go, hr] using ih maps used e' hm
    · rcases hr : Bot.entries_go ((dlookup c regex_patterns).getD []) used entry_id_dict
          ((none, 0), err) with ⟨⟨best, sc⟩, e'⟩
      rcases best with _ | eid
      · simpa [Bot.regex_go, hr] using ih maps used e' hm
      · by_cases he : eid = ""
        · simpa [Bot.regex_go, hr, he] using ih maps used e' hm
        · have hm' : dlookup csv_col (dinsert c eid maps) = none := by
            rw [dlookup_dinsert_ne c csv_col eid maps (fun hh => hc hh.symm)]
            exact hm
          simpa [Bot.regex_go, hr, he] using ih (dinsert c eid maps) (eid :: used) e' hm'

/-! Payload-building lemmas. -/

theorem foldl_dinsert_eq {α β : Type} [BEq α] [LawfulBEq α] (l : List (α × β)) :
    ∀ (acc : List (α × β)),
      (∀ k ∈ l.map Prod.fst, dlookup k acc = none) →
      (l.map Prod.fst).Nodup →
      l.foldl (fun fd p => dinsert p.1 p.2 fd) acc = acc ++ l := by
  induction l with
  | nil => intro acc _ _; simp
  | cons p rest ih =>
    intro acc hfresh hnodup
    obtain ⟨k, v⟩ := p
    have hk : dlookup k acc = none := hfresh k (by simp)
    have hmem : k ∉ rest.map Prod.fst := by
      simp only [List.map_cons, List.nodup_cons] at hnodup
      exact hnodup.1
    have hfresh' : ∀ k' ∈ rest.map Prod.fst, dlookup k' (acc ++ [(k, v)]) = none := by
      intro k' hk'
      have hne : k' ≠ k := fun hh => hmem (hh ▸ hk')
      rw [dlookup_append_right k' acc [(k, v)] (hfresh k' (by simp [hk']))]
      have hkk : ¬ (k = k') := fun hh => hne hh.symm
      simp [dlookup, hkk]
    have hnodup' : (rest.map Prod.fst).Nodup := by
      simp only [List.map_cons, List.nodup_cons] at hnodup
      exact hnodup.2
    rw [List.foldl_cons, dinsert_eq_append k v acc hk, ih (acc ++ [(k, v)]) hfresh' hnodup']
    simp

theorem foldl_dinsert_of_nodup {α β : Type} [BEq α] [LawfulBEq α] (l : List (α × β))
    (hnodup : (l.map Prod.fst).Nodup) :
    l.foldl (fun fd p => dinsert p.1 p.2 fd) [] = l := by
  have := foldl_dinsert_eq l [] (fun k _ => rfl) hnodup
  simpa using this

/-! Hidden re-add lemmas. -/

theorem readd_lookup_eq (d : List (String × Test2.PyVal)) :
    ∀ (maps : List (String × Test2.PyVal)) (k : String),
      (∀ k' a b, (k', Test2.PyVal.ptup a b) ∈ d → a ≠ k) →
      dlookup k (Test2.readd_hidden d maps) = dlookup k maps := by
  induction d with
  | nil => intro maps k _; simp [Test2.readd_hidden]
  | cons p rest ih =>
    intro maps k h
    obtain ⟨k0, v0⟩ := p
    have hrest : ∀ k' a b, (k', Test2.PyVal.ptup a b) ∈ rest → a ≠ k :=
      fun k' a b hm => h k' a b (List.mem_cons_of_mem _ hm)
    rcases v0 with s | ⟨a, b⟩ | _
    · simpa [Test2.readd_hidden] using ih maps k hrest
    · have ha : a ≠ k := h k0 a b (List.mem_cons_self _ _)
      have hstep : dlookup k (dinsert a (Test2.PyVal.ptup a b) maps) = dlookup k maps :=
        dlookup_dinsert_ne a k _ maps (fun hh => ha hh.symm)
      simpa [Test2.readd_hidden] using
        (ih (dinsert a (Test2.PyVal.ptup a b) maps) k hrest).trans hstep
    · simpa [Test2.readd_hidden] using ih maps k hrest

theorem readd_lookup_mem (d : List (String × Test2.PyVal)) (maps : List (String × Test2.PyVal))
    (k v : String)
    (hmem : (k, Test2.PyVal.ptup k v) ∈ d)
    (hkeys : (d.map Prod.fst).Nodup)
    (hown : ∀ k' a b, (k', Test2.PyVal.ptup a b) ∈ d → a = k') :
    dlookup k (Test2.readd_hidden d maps) = some (Test2.PyVal.ptup k v) := by
  obtain ⟨s, t, rfl⟩ := List.append_of_mem hmem
  have hsplit : Test2.readd_hidden (s ++ (k, Test2.PyVal.ptup k v) :: t) maps =
      Test2.readd_hidden t
        (dinsert k (Test2.PyVal.ptup k v) (Test2.readd_hidden s maps)) := by
    simp [Test2.readd_hidden, List.foldl_append]
  rw [hsplit]
  have hnotin : k ∉ t.map Prod.fst := by
    have h1 : ((s ++ (k, Test2.PyVal.ptup k v) :: t).map Prod.fst).Nodup := hkeys
    rw [List.map_append, List.map_cons] at h1
    have h2 := h1.of_append_right
    exact (List.nodup_cons.mp h2).1
  have ht : ∀ k' a b, (k', Test2.PyVal.ptup a b) ∈ t → a ≠ k := by
    intro k' a b hm hak
    have ha : a = k' := hown k' a b (by simp [hm])
    apply hnotin
    rw [← hak, ha]
    exact List.mem_map_of_mem Prod.fst hm
  rw [readd_lookup_eq t _ k ht]
  exact dlookup_dinsert_self k _ _

theorem foldl_dinsert_values {α β : Type} [BEq α] [LawfulBEq α]
    (P : β → Bool) (f : α × β → α)
    (l : List (α × β)) :
    ∀ (acc : List (α × β)),
      (∀ p ∈ acc, P p.2 = true) → (∀ p ∈ l, P p.2 = true) →
      ∀ q ∈ l.foldl (fun a p => dinsert (f p) p.2 a) acc, P q.2 = true := by
  induction l with
  | nil => intro acc hacc _ q hq; exact hacc q hq
  | cons p rest ih =>
    intro acc hacc hl q hq
    have hp : P p.2 = true := hl p (List.mem_cons_self _ _)
    have hrest : ∀ p' ∈ rest, P p'.2 = true := fun p' hp' => hl p' (List.mem_cons_of_mem _ hp')
    have hacc' : ∀ q' ∈ dinsert (f p) p.2 acc, P q'.2 = true := by
      intro q' hq'
      rcases mem_dinsert (f p) p.2 acc q' hq' with h | h
      · rw [h]; exact hp
      · exact hacc q' h
    exact ih (dinsert (f p) p.2 acc) hacc' hrest q hq

/-! Payload characterization lemmas. -/

theorem form_data_t1_eq (fm : List (String × String)) (row : List (String × String))
    (h : (fm.map Prod.snd).Nodup) :
    Test1.form_data fm row = fm.map (fun p => (p.2, dget p.1 row "")) := by
  have hmap : (fm.map (fun p => ((p.2 : String), dget p.1 row ""))).map Prod.fst =
      fm.map Prod.snd := by
    rw [List.map_map]; rfl
  have hfold := foldl_dinsert_of_nodup (fm.map (fun p => (p.2, dget p.1 row "")))
    (by rw [hmap]; exact h)
  rw [List.foldl_map] at hfold
  exact hfold

theorem foldl_skip_filter {β γ : Type} (cond : β → Bool) (g : γ → β → γ)
    (l : List β) :
    ∀ (acc : γ), l.foldl (fun fd p => if cond p then fd else g fd p) acc =
      (l.filter (fun p => !cond p)).foldl g acc := by
  induction l with
  | nil => intro acc; simp
  | cons p rest ih =>
    intro acc
    by_cases hc : cond p
    · simp [hc, ih]
    · simp [hc, ih]

theorem form_data_t2_eq (fm : List (String × Test2.PyVal)) (row : List (String × String))
    (h : ((fm.filter (fun p => p.1 != "User")).map (fun p => Test2.payload_key p.2)).Nodup) :
    Test2.form_data fm row = (fm.filter (fun p => p.1 != "User")).map
      (fun p => (Test2.payload_key p.2, Test2.payload_val row p.1 p.2)) := by
  have hskip : Test2.form_data fm row = (fm.filter (fun p => !(p.1 == "User"))).foldl
      (fun fd p => dinsert (Test2.payload_key p.2) (Test2.payload_val row p.1 p.2) fd) [] := by
    show fm.foldl (fun fd p => if p.1 = "User" then fd
      else dinsert (Test2.payload_key p.2) (Test2.payload_val row p.1 p.2) fd) [] = _
    have hcond : ∀ (fd : List (Test2.PyVal × String)) (p : String × Test2.PyVal),
        (if p.1 = "User" then fd
          else dinsert (Test2.payload_key p.2) (Test2.payload_val row p.1 p.2) fd) =
        (if (p.1 == "User") then fd
          else dinsert (Test2.payload_key p.2) (Test2.payload_val row p.1 p.2) fd) := by
      intro fd p
      by_cases hp : p.1 = "User" <;> simp [hp]
    simp only [hcond]
    exact foldl_skip_filter (fun p => p.1 == "User")
      (fun fd p => dinsert (Test2.payload_key p.2) (Test2.payload_val row p.1 p.2) fd) fm []
  have hpred : (fun p : String × Test2.PyVal => !(p.1 == "User")) =
      (fun p : String × Test2.PyVal => p.1 != "User") := by
    funext p; rfl
  rw [hskip, hpred]
  set l := fm.filter (fun p => p.1 != "User") with hl
  have hmap : (l.map (fun p => (Test2.payload_key p.2, Test2.payload_val row p.1 p.2))).map
      Prod.fst = l.map (fun p => Test2.payload_key p.2) := by
    rw [List.map_map]; rfl
  have hfold := foldl_dinsert_of_nodup
    (l.map (fun p => (Test2.payload_key p.2, Test2.payload_val row p.1 p.2)))
    (by rw [hmap]; exact h)
  rw [List.foldl_map] at hfold
  exact hfold

theorem form_data_bot_combined (fm entry_ids gmappings : List (String × String))
    (row : List (String × String)) (snf : String)
    (hb : ((dlookup "firstname" fm).isSome && (dlookup "lastname" fm).isSome) = false)
    (hs : Bot.single_name_field entry_ids gmappings = some snf)
    (hsne : snf ≠ "")
    (hnd : ((fm.filter (fun p => p.1 != "firstname" && p.1 != "lastname")).map Prod.snd).Nodup)
    (hfresh : snf ∉ (fm.filter (fun p => p.1 != "firstname" && p.1 != "lastname")).map Prod.snd) :
    Bot.form_data fm entry_ids gmappings row =
      (snf, strip (dget "firstname" row "" ++ " " ++ dget "lastname" row "")) ::
        (fm.filter (fun p => p.1 != "firstname" && p.1 != "lastname")).map
          (fun p => (p.2, dget p.1 row "")) := by
  unfold Bot.form_data
  rw [hb, hs]
  simp only [Bool.false_eq_true, if_false, hsne]
  set l := fm.filter (fun p => p.1 != "firstname" && p.1 != "lastname") with hl
  set c := strip (dget "firstname" row "" ++ " " ++ dget "lastname" row "") with hc
  have hmap : (l.map (fun p => ((p.2 : String), dget p.1 row ""))).map Prod.fst =
      l.map Prod.snd := by
    rw [List.map_map]; rfl
  have hfreshacc : ∀ k ∈ (l.map (fun p => ((p.2 : String), dget p.1 row ""))).map Prod.fst,
      dlookup k (dinsert snf c []) = none := by
    intro k hk
    rw [hmap] at hk
    have hne : k ≠ snf := fun hh => hfresh (hh ▸ hk)
    have : dinsert snf c ([] : List (String × String)) = [(snf, c)] := rfl
    rw [this]
    have hks : ¬ (snf = k) := fun hh => hne hh.symm
    simp [dlookup, hks]
  have hfold := foldl_dinsert_eq (l.map (fun p => (p.2, dget p.1 row "")))
    (dinsert snf c []) hfreshacc (by rw [hmap]; exact hnd)
  rw [List.foldl_map] at hfold
  rw [hfold]
  rfl

/-! Claim theorems. -/

/-- Claim C1 (code_bug evaluation): in Strategy C, when the parsed model
response maps both columns A and B to entry.1, find_matching_keys_with_gemini
warns about B ("already used. Skipping.") yet returns a mapping in which both
A and B are bound to entry.1 — the uniqueness invariant the claim states does
not hold for the returned ColumnMapping. -/
theorem c1_theorem :
    (Test2.find_matching_keys_with_gemini [] ["A", "B"]
        (some [("A", Test2.PyVal.pstr "entry.1"), ("B", Test2.PyVal.pstr "entry.1")])).mappings
      = [("A", Test2.PyVal.pstr "entry.1"), ("B", Test2.PyVal.pstr "entry.1")] ∧
    (Test2.find_matching_keys_with_gemini [] ["A", "B"]
        (some [("A", Test2.PyVal.pstr "entry.1"), ("B", Test2.PyVal.pstr "entry.1")])).warnings
      = ["B"] := by
  constructor <;> decide

/-- Claim C2: in csv_to_google_form the success flag of each row is exactly
the outcome of that row's own submission call (so a failing row marks only
itself and processing continues through every row), the returned boolean is
the conjunction of the per-row flags, and on three rows whose second
submission raises a transport error the run returns false with exactly rows
1 and 3 reported successful. -/
theorem c2_theorem :
    (∀ (field_mappings : List (String × String)) (rows : List (List (String × String)))
        (post : Nat → List (String × String) → Test1.PostOutcome),
      Test1.csv_to_google_form field_mappings rows post =
        (((rows.enumFrom 0).map
            (fun p => Test1.outcome_ok (post p.1 (Test1.form_data field_mappings p.2)))).all id,
          (rows.enumFrom 0).map
            (fun p => Test1.outcome_ok (post p.1 (Test1.form_data field_mappings p.2))))) ∧
    Test1.csv_to_google_form [("A", "entry.5")]
        [[("A", "1")], [("A", "2")], [("A", "3")]]
        (fun i _ => if i = 1 then Test1.PostOutcome.transportErr else Test1.PostOutcome.ok)
      = (false, [true, false, true]) := by
  constructor
  · intro field_mappings rows post
    have h := csv_go_spec field_mappings post rows 0 true
    simpa [Test1.csv_to_google_form] using h
  · decide

/-- Claim C3 (code_bug evaluation): with the rule set Email to pattern
"e-?mail" (score 80, contains) and the single field label "Your Email
Address", find_matching_keys_with_regex returns the empty mapping and never
reaches the invalid-regex branch, because sanitize_for_regex escapes the
pattern and the label does not contain the literal text "e-?mail" — even
though the label plainly contains "email", the text the unescaped regex
denotes. -/
theorem c3_theorem :
    Bot.find_matching_keys_with_regex [("Your Email Address", "entry.1")] ["Email"]
        [("Email", [⟨"e-?mail", 80, some "contains"⟩])] = ([], false) ∧
    contains_ci "email" "Your Email Address" = true := by
  constructor <;> decide

/-- Claim C4 (code_bug evaluation): in Strategy C, when the parsed model
response maps column Email to the unrecognized identifier "bogus", the
matcher warns about Email yet keeps the entry: the returned mapping still
contains Email bound to "bogus" instead of discarding it. -/
theorem c4_theorem :
    (Test2.find_matching_keys_with_gemini [] ["Email"]
        (some [("Email", Test2.PyVal.pstr "bogus")])).mappings
      = [("Email", Test2.PyVal.pstr "bogus")] ∧
    (Test2.find_matching_keys_with_gemini [] ["Email"]
        (some [("Email", Test2.PyVal.pstr "bogus")])).warnings = ["Email"] := by
  constructor <;> decide

/-- Claim C5 counterexample: in the basic variant, a successful fetch of a
page with no recognizable fields returns exactly the same value (None) as a
fetch failure — the two outcomes are not distinguished. -/
theorem c5_counterexample :
    Test1.get_form_entry_ids (Except.ok []) = Test1.get_form_entry_ids (Except.error ()) := by
  decide

/-- Claim C5 (amended): only the multi-user variant distinguishes the empty
FieldMap outcome from a fetch failure — its get_form_entry_ids returns the
extracted dict (possibly empty) on every successful fetch, which differs from
the None of a fetch error; in the basic variant a fetched page whose
extraction is empty collapses to None, the same value a fetch failure
returns. -/
theorem c5_theorem :
    (∀ doc : Test2.FormDoc,
      Test2.get_form_entry_ids (Except.ok doc) = some (Test2.extract_doc doc) ∧
      Test2.get_form_entry_ids (Except.ok doc) ≠ Test2.get_form_entry_ids (Except.error ())) ∧
    (∀ items : List Test1.ListItem, Test1.extract_items items = [] →
      Test1.get_form_entry_ids (Except.ok items) = Test1.get_form_entry_ids (Except.error ())) := by
  constructor
  · intro doc
    exact ⟨rfl, by simp [Test2.get_form_entry_ids]⟩
  · intro items h
    simp [Test1.get_form_entry_ids, h]

/-- Claim C5 witness: the amended statement applied at concrete inputs — the
empty page in the basic variant, and a page with no containers and no hidden
inputs in the multi-user variant. -/
theorem c5_witness :
    Test1.get_form_entry_ids (Except.ok []) = Test1.get_form_entry_ids (Except.error ()) ∧
    Test2.get_form_entry_ids (Except.ok ⟨[], []⟩) ≠ Test2.get_form_entry_ids (Except.error ()) :=
  ⟨c5_theorem.2 [] rfl, (c5_theorem.1 ⟨[], []⟩).2⟩

/-- Claim C6 counterexample: in the regex variant, with only firstname mapped
and a single name field detected through the module globals, the payload for
the row firstname=John, lastname=Doe carries the combined value "John Doe"
under entry.1, not the row's raw firstname value "John" — a combination the
claim rules out. -/
theorem c6_counterexample :
    Bot.form_data [("firstname", "entry.1")] [("Name", "entry.1")] [("firstname", "entry.1")]
        [("firstname", "John"), ("lastname", "Doe")] = [("entry.1", "John Doe")] ∧
    dget "firstname" [("firstname", "John"), ("lastname", "Doe")] "" = "John" ∧
    ("John Doe" : String) ≠ "John" := by
  refine ⟨by decide, by decide, by decide⟩

/-- Claim C6 (amended): in the basic and multi-user variants the payload is
exactly one entry per mapping pair — excluding the User column in the
multi-user variant — whose value is the row's raw value for the column (the
tuple's fixed default for hidden pairs); the regex variant produces the same
payload except when firstname and lastname are not both mapped and a truthy
(non-empty) single name field is detected through the module globals, in
which case that field receives the space-joined, stripped combination of the
row's firstname and lastname values and the remaining non-name columns are
filled normally. -/
theorem c6_theorem :
    (∀ (field_mappings row : List (String × String)),
      (field_mappings.map Prod.snd).Nodup →
      Test1.form_data field_mappings row =
        field_mappings.map (fun p => (p.2, dget p.1 row ""))) ∧
    (∀ (field_mappings : List (String × Test2.PyVal)) (row : List (String × String)),
      ((field_mappings.filter (fun p => p.1 != "User")).map
          (fun p => Test2.payload_key p.2)).Nodup →
      Test2.form_data field_mappings row =
        (field_mappings.filter (fun p => p.1 != "User")).map
          (fun p => (Test2.payload_key p.2, Test2.payload_val row p.1 p.2))) ∧
    (∀ (field_mappings entry_ids gmappings row : List (String × String)),
      (((dlookup "firstname" field_mappings).isSome &&
          (dlookup "lastname" field_mappings).isSome) = true ∨
        Bot.single_name_field entry_ids gmappings = none ∨
        Bot.single_name_field entry_ids gmappings = some "") →
      Bot.form_data field_mappings entry_ids gmappings row =
        Test1.form_data field_mappings row) ∧
    (∀ (field_mappings entry_ids gmappings row : List (String × String)) (snf : String),
      ((dlookup "firstname" field_mappings).isSome &&
          (dlookup "lastname" field_mappings).isSome) = false →
      Bot.single_name_field entry_ids gmappings = some snf →
      snf ≠ "" →
      ((field_mappings.filter (fun p => p.1 != "firstname" && p.1 != "lastname")).map
          Prod.snd).Nodup →
      snf ∉ (field_mappings.filter
          (fun p => p.1 != "firstname" && p.1 != "lastname")).map Prod.snd →
      Bot.form_data field_mappings entry_ids gmappings row =
        (snf, strip (dget "firstname" row "" ++ " " ++ dget "lastname" row "")) ::
          (field_mappings.filter (fun p => p.1 != "firstname" && p.1 != "lastname")).map
            (fun p => (p.2, dget p.1 row ""))) := by
  refine ⟨form_data_t1_eq, form_data_t2_eq, ?_, ?_⟩
  · intro fm eids gm row h
    rcases h with h | h | h
    · simp only [Bot.form_data, h, if_true]
      rfl
    · unfold Bot.form_data
      by_cases hc : ((dlookup "firstname" fm).isSome && (dlookup "lastname" fm).isSome) = true
      · simp only [hc, if_true]
        rfl
      · simp only [Bool.not_eq_true] at hc
        simp only [hc, Bool.false_eq_true, if_false, h]
        rfl
    · unfold Bot.form_data
      by_cases hc : ((dlookup "firstname" fm).isSome && (dlookup "lastname" fm).isSome) = true
      · simp only [hc, if_true]
        rfl
      · simp only [Bool.not_eq_true] at hc
        simp only [hc, Bool.false_eq_true, if_false, h]
        rfl
  · intro fm eids gm row snf hb hs hsne hnd hfresh
    exact form_data_bot_combined fm eids gm row snf hb hs hsne hnd hfresh

/-- Claim C6 witness: the amended statement applied at concrete inputs for
all four cases — plain fill in the basic variant, User-and-hidden handling in
the multi-user variant, plain fill in the regex variant when both name
columns are mapped, and the combining case of the regex variant. -/
theorem c6_witness :
    Test1.form_data [("A", "entry.1")] [("A", "x")] = [("entry.1", "x")] ∧
    Test2.form_data
        [("User", Test2.PyVal.pstr "entry.0"), ("A", Test2.PyVal.pstr "entry.1"),
          ("entry.7", Test2.PyVal.ptup "entry.7" "d")] [("A", "x")]
      = [(Test2.PyVal.pstr "entry.1", "x"), (Test2.PyVal.pstr "entry.7", "d")] ∧
    Bot.form_data [("firstname", "entry.1"), ("lastname", "entry.2")] [] []
        [("firstname", "John"), ("lastname", "Doe")]
      = Test1.form_data [("firstname", "entry.1"), ("lastname", "entry.2")]
          [("firstname", "John"), ("lastname", "Doe")] ∧
    Bot.form_data [("firstname", "entry.1"), ("city", "entry.3")] [("Name", "entry.1")]
        [("firstname", "entry.1")]
        [("firstname", "John"), ("lastname", "Doe"), ("city", "Paris")]
      = [("entry.1", "John Doe"), ("entry.3", "Paris")] := by
  refine ⟨?_, ?_, ?_, ?_⟩
  · exact (c6_theorem.1 [("A", "entry.1")] [("A", "x")] (by decide)).trans (by decide)
  · exact (c6_theorem.2.1 _ [("A", "x")] (by decide)).trans (by decide)
  · exact c6_theorem.2.2.1 _ [] [] _ (Or.inl (by decide))
  · exact (c6_theorem.2.2.2 _ _ _ _ "entry.1" (by decide) (by decide) (by decide)
      (by decide) (by decide)).trans (by decide)

/-- Claim C7: in Strategy A, whenever the first field entry that is unused
and whose label equals the column case-insensitively exists, the inner loop
selects exactly that entry's identifier — regardless of any partial scores
accumulated before it or candidates after it — and on the claim's example the
column Email maps to entry.1 rather than the longer partial match. -/
theorem c7_theorem :
    (∀ (entry_id_dict : List (String × String)) (used : List String) (csv_col : String)
        (e : String × String),
      entry_id_dict.find? (fun p => !(used.contains p.2) && ci_eq csv_col p.1) = some e →
      Test1.find_best entry_id_dict used csv_col = some e.2) ∧
    Test1.find_matching_keys [("Email", "entry.1"), ("Email Address", "entry.2")] ["Email"]
      = [("Email", "entry.1")] := by
  constructor
  · intro d used col e h
    exact best_go_of_find col used d none 0 e h
  · decide

/-- Claim C7 witness: the general statement applied to the claim's example,
with the find? hypothesis discharged concretely. -/
theorem c7_witness :
    List.find? (fun p => !(([] : List String).contains p.2) && ci_eq "Email" p.1)
        [("Email", "entry.1"), ("Email Address", "entry.2")] = some ("Email", "entry.1") ∧
    Test1.find_best [("Email", "entry.1"), ("Email Address", "entry.2")] [] "Email"
      = some "entry.1" :=
  ⟨by decide, c7_theorem.1 _ _ _ ("Email", "entry.1") (by decide)⟩

/-- Claim C8 counterexample: a field map that also carries a hidden field
named Email defeats the round-trip — after the hidden re-add pass the
returned mapping binds Email to the hidden pair, not to entry.2 from the
model response, even though the map contains entry.9 and the response
contains the well-formed block Email to entry.2. -/
theorem c8_counterexample :
    ("entry.9", Test2.PyVal.ptup "entry.9" "abc") ∈
      ([("entry.9", Test2.PyVal.ptup "entry.9" "abc"),
        ("Email", Test2.PyVal.ptup "Email" "x")] : List (String × Test2.PyVal)) ∧
    dlookup "Email" (Test2.find_matching_keys_with_gemini
        [("entry.9", Test2.PyVal.ptup "entry.9" "abc"),
          ("Email", Test2.PyVal.ptup "Email" "x")]
        ["Email"] (some [("Email", Test2.PyVal.pstr "entry.2")])).mappings
      ≠ some (Test2.PyVal.pstr "entry.2") := by
  constructor <;> decide

/-- Claim C8 (amended): the Strategy C round-trip holds for every field map
keying its hidden fields under their own names (as the introspector builds
them, with distinct dict keys) and containing no hidden field named Email:
when such a map contains entry.9 mapped to the pair ("entry.9", "abc") and
the parsed model response is the single binding Email to entry.2, the
returned mapping binds Email to entry.2 and entry.9 to its pair, and every
candidate offered to the model is a visible field — hidden fields are never
offered and are added back under their own name after the delegated pass. -/
theorem c8_theorem (entry_id_dict : List (String × Test2.PyVal)) (csv_header : List String)
    (hmem : ("entry.9", Test2.PyVal.ptup "entry.9" "abc") ∈ entry_id_dict)
    (hown : ∀ k a b, (k, Test2.PyVal.ptup a b) ∈ entry_id_dict → a = k)
    (hkeys : (entry_id_dict.map Prod.fst).Nodup)
    (hemail : ∀ a b, ("Email", Test2.PyVal.ptup a b) ∉ entry_id_dict) :
    dlookup "Email" (Test2.find_matching_keys_with_gemini entry_id_dict csv_header
        (some [("Email", Test2.PyVal.pstr "entry.2")])).mappings
      = some (Test2.PyVal.pstr "entry.2") ∧
    dlookup "entry.9" (Test2.find_matching_keys_with_gemini entry_id_dict csv_header
        (some [("Email", Test2.PyVal.pstr "entry.2")])).mappings
      = some (Test2.PyVal.ptup "entry.9" "abc") ∧
    (∀ q ∈ (Test2.find_matching_keys_with_gemini entry_id_dict csv_header
        (some [("Email", Test2.PyVal.pstr "entry.2")])).prompt_fields,
      Test2.is_visible_entry q.2 = true) := by
  refine ⟨?_, ?_, ?_⟩
  · show dlookup "Email" (Test2.readd_hidden entry_id_dict
      [("Email", Test2.PyVal.pstr "entry.2")]) = some (Test2.PyVal.pstr "entry.2")
    have hne : ∀ k' a b, (k', Test2.PyVal.ptup a b) ∈ entry_id_dict → a ≠ "Email" := by
      intro k' a b hm ha
      have hk : a = k' := hown k' a b hm
      rw [ha] at hk
      rw [← hk] at hm
      exact hemail a b hm
    rw [readd_lookup_eq entry_id_dict _ "Email" hne]
    decide
  · show dlookup "entry.9" (Test2.readd_hidden entry_id_dict
      [("Email", Test2.PyVal.pstr "entry.2")]) = some (Test2.PyVal.ptup "entry.9" "abc")
    exact readd_lookup_mem entry_id_dict _ "entry.9" "abc" hmem hkeys hown
  · show ∀ q ∈ (entry_id_dict.filter (fun p => Test2.is_visible_entry p.2)).foldl
        (fun acc p => dinsert (Test2.sanitize_for_prompt p.1) p.2 acc) [],
      Test2.is_visible_entry q.2 = true
    refine foldl_dinsert_values Test2.is_visible_entry
      (fun p => Test2.sanitize_for_prompt p.1) _ [] (by intro p hp; cases hp) ?_
    intro p hp
    exact (List.mem_filter.mp hp).2

/-- Claim C8 witness: the amended statement applied to a concrete field map
with one visible field and the hidden field entry.9. -/
theorem c8_witness :
    dlookup "Email" (Test2.find_matching_keys_with_gemini
        [("Name", Test2.PyVal.pstr "entry.2"), ("entry.9", Test2.PyVal.ptup "entry.9" "abc")]
        ["Email"] (some [("Email", Test2.PyVal.pstr "entry.2")])).mappings
      = some (Test2.PyVal.pstr "entry.2") ∧
    dlookup "entry.9" (Test2.find_matching_keys_with_gemini
        [("Name", Test2.PyVal.pstr "entry.2"), ("entry.9", Test2.PyVal.ptup "entry.9" "abc")]
        ["Email"] (some [("Email", Test2.PyVal.pstr "entry.2")])).mappings
      = some (Test2.PyVal.ptup "entry.9" "abc") ∧
    (∀ q ∈ (Test2.find_matching_keys_with_gemini
        [("Name", Test2.PyVal.pstr "entry.2"), ("entry.9", Test2.PyVal.ptup "entry.9" "abc")]
        ["Email"] (some [("Email", Test2.PyVal.pstr "entry.2")])).prompt_fields,
      Test2.is_visible_entry q.2 = true) := by
  refine c8_theorem _ ["Email"] (by decide) ?_ (by decide) ?_
  · intro k a b hm
    rcases List.mem_cons.mp hm with h | h
    · injection h with hk hv
      injection hv
    · rcases List.mem_cons.mp h with h' | h'
      · injection h' with hk hv
        injection hv with ha hb
        rw [ha, hk]
      · cases h'
  · intro a b hm
    rcases List.mem_cons.mp hm with h | h
    · injection h with hk hv
      injection hv
    · rcases List.mem_cons.mp h with h' | h'
      · injection h' with hk hv
        exact absurd hk (by decide)
      · cases h'

/-- Claim C9: a column whose label scores are all zero in Strategy A, or none
of whose rules matches any label in Strategy B (including a column with no
rules at all), is absent from the returned ColumnMapping — it is never bound
to an empty string or a default identifier. -/
theorem c9_theorem :
    (∀ (entry_id_dict : List (String × String)) (csv_header : List String) (csv_col : String),
      (∀ p ∈ entry_id_dict, Test1.label_score csv_col p.1 = 0) →
      dlookup csv_col (Test1.find_matching_keys entry_id_dict csv_header) = none) ∧
    (∀ (entry_id_dict : List (String × String)) (csv_header : List String)
        (regex_patterns : List (String × List Bot.Rule)) (csv_col : String),
      (∀ r ∈ (dlookup csv_col regex_patterns).getD [],
        ∀ p ∈ entry_id_dict, Bot.eval_rule p.1 r ≠ some true) →
      dlookup csv_col (Bot.find_matching_keys_with_regex entry_id_dict csv_header
        regex_patterns).1 = none) := by
  constructor
  · intro d cols col h
    exact fmk_go_lookup_none d col h cols [] [] rfl
  · intro d cols pats col h
    exact regex_go_lookup_none d pats col h cols [] [] false rfl

/-- Claim C9 witness: both parts applied to a concrete field map whose single
label scores zero against the column Email, and a rule set whose only pattern
for Email matches no label. -/
theorem c9_witness :
    dlookup "Email" (Test1.find_matching_keys [("Favorite Color Choice", "entry.3")]
      ["Email"]) = none ∧
    dlookup "Email" (Bot.find_matching_keys_with_regex [("Favorite Color Choice", "entry.3")]
      ["Email"] [("Email", [⟨"zzz", 50, some "contains"⟩])]).1 = none :=
  ⟨c9_theorem.1 [("Favorite Color Choice", "entry.3")] ["Email"] "Email" (by decide),
   c9_theorem.2 [("Favorite Color Choice", "entry.3")] ["Email"]
     [("Email", [⟨"zzz", 50, some "contains"⟩])] "Email" (by decide)⟩

/-- Claim C10: every configured pattern is passed through sanitize_for_regex
(re.escape) before compiling, so the escaped pattern always denotes exactly
its own literal text — a contains search reduces to case-insensitive
substring containment of the raw pattern — and the invalid-regex warning
branch of find_matching_keys_with_regex never runs for any input. -/
theorem c10_theorem :
    (∀ p : String, Bot.lit_of (Bot.sanitize_for_regex p) = some p) ∧
    (∀ p hay : String, Bot.re_search_lit (Bot.sanitize_for_regex p) hay
      = some (contains_ci p hay)) ∧
    (∀ (entry_id_dict : List (String × String)) (csv_header : List String)
        (regex_patterns : List (String × List Bot.Rule)),
      (Bot.find_matching_keys_with_regex entry_id_dict csv_header regex_patterns).2
        = false) := by
  refine ⟨lit_of_sanitize, re_search_lit_sanitize, ?_⟩
  intro d cols pats
  exact regex_go_err d pats cols [] [] false

end FormBot
